import Mathlib

/-!
Shallow embedding of `Meet.py` (trading-strategy backtester) for verifying the
specification's claims about its core: the price resolver (`get_stock_price`),
the outcome classifier (`check_target_or_sl_first`), and the batch evaluator
(the per-row loop and the statistics block of `main`).

Modelling conventions:
* Calendar dates in price series are modelled as integer day indices (`ℤ`);
  `timedelta(days = n)` is `+ n`.
* Prices and percentages are modelled as rationals (`ℚ`).
* The external data source (`yf.Ticker(...).history(start, end)`) is modelled
  by `history`, which filters a symbol's full market series to the requested
  window.  Per yfinance's documented semantics the `start` bound is inclusive
  and the `end` bound is **exclusive**.  A data-source failure (the `except`
  paths in the source) is modelled by passing `Except.error msg` instead of a
  market series.
* Python floats are modelled as exact rationals; `round(x, 2)` is modelled by
  `round2` (round half to even on the exact value, matching Python's rounding
  on values where the binary-float representation does not intervene; no claim
  below exercises an input where it does).
-/

namespace Meet

/-- One daily OHLC bar.  The source reads only the index date and the
`High`, `Low`, `Close` columns, so the unused `Open` column is omitted. -/
structure Bar where
  date : ℤ
  high : ℚ
  low : ℚ
  close : ℚ
deriving DecidableEq, Repr

/-- `yf.Ticker(symbol).history(start, end)` applied to the symbol's full
market series `m`: the daily bars with `start ≤ date` and `date < stop`
(yfinance's `end` parameter is exclusive). -/
def history (m : List Bar) (start stop : ℤ) : List Bar :=
  m.filter (fun b => decide (start ≤ b.date) && decide (b.date < stop))

/-- The classification outcome, i.e. the strings stored in the `result`
column: `"Target Hit"`, `"Stop Loss Hit"`, `"Neither Hit"`, `"No Data"`,
`"Price Not Found"`, or `"Error: {msg}"` (modelled as `err` carrying the
full formatted string). -/
inductive Outcome where
  | targetHit
  | stopLossHit
  | neitherHit
  | noData
  | priceNotFound
  | err (msg : String)
deriving DecidableEq, Repr

/-- The scanning loop of `check_target_or_sl_first` (source lines 131-142):
for each bar of the fetched window, in order, skip it when its date is not
strictly after the entry date; otherwise return `targetHit` when
`high ≥ target_price`, else `stopLossHit` when `low ≤ sl_price`, else
continue; `neitherHit` when the loop exhausts the window. -/
def scanBars (e : ℤ) (tp sl : ℚ) : List Bar → Outcome
  | [] => .neitherHit
  | b :: rest =>
    if e < b.date then
      if tp ≤ b.high then .targetHit
      else if b.low ≤ sl then .stopLossHit
      else scanBars e tp sl rest
    else scanBars e tp sl rest

/-- `check_target_or_sl_first(symbol, entry_date, entry_price, target_price,
sl_price)` (source lines 98-148), after date parsing: fetch
`history(start = entry_date, end = entry_date + 30 days)`; if the fetched data
is empty return `"No Data"`; otherwise run the scanning loop.  A raised
data-source error is caught by the enclosing `except` and returned as the
string `"Error: {msg}"`. -/
def check_target_or_sl_first (market : Except String (List Bar)) (e : ℤ)
    (tp sl : ℚ) : Outcome :=
  match market with
  | .error msg => .err ("Error: " ++ msg)
  | .ok m =>
    let data := history m e (e + 30)
    if data = [] then .noData else scanBars e tp sl data

/-- `get_stock_price(symbol, date)` (source lines 48-95), after date parsing:
fetch `history(date - 7 days, date + 7 days)`; `None` when empty; when a bar
whose date equals the target date exists, its close.  Otherwise the source
computes `data['date_diff'] = abs((data.index.date - date.date()).days)` and
takes `idxmin` — but `data.index.date` is a numpy object array of
`datetime.date`, its elementwise difference is an object array of
`datetime.timedelta`, and `numpy.ndarray` has no attribute `days`, so this
line raises `AttributeError`; the enclosing blanket `except` catches it and
returns `None`.  The closest-day branch is therefore modelled as `none`.
A data-source error is likewise caught and returned as `None`. -/
def get_stock_price (market : Except String (List Bar)) (d : ℤ) : Option ℚ :=
  match market with
  | .error _ => none
  | .ok m =>
    let data := history m (d - 7) (d + 7)
    if data = [] then none
    else
      match data.find? (fun x => decide (x.date = d)) with
      | some x => some x.close
      | none => none

/-- Absolute day distance between a bar's date and the target date. -/
def date_dist (b : Bar) (d : ℤ) : ℕ := (b.date - d).natAbs

/-- First-occurrence arg-min over bars by `date_dist` (the behaviour pandas
`idxmin` would have: the earliest bar among those at minimal distance, for a
date-ascending window). -/
def idxminBar (d : ℤ) : Bar → List Bar → Bar
  | best, [] => best
  | best, b :: rest =>
    if date_dist b d < date_dist best d then idxminBar d b rest
    else idxminBar d best rest

/-- Modelled from the spec: the Price Resolver's closest-trading-day rule as
§4.1 words it (the source's implementation of this branch raises, see
`get_stock_price`): over the fetched window, return the exact-date bar's close
when present, otherwise the close of the bar with the smallest absolute
day-distance, earliest date winning ties. -/
def resolve_spec (m : List Bar) (d : ℤ) : Option ℚ :=
  match history m (d - 7) (d + 7) with
  | [] => none
  | b :: rest =>
    match (b :: rest).find? (fun x => decide (x.date = d)) with
    | some x => some x.close
    | none => some (idxminBar d b rest).close

/-! ### Date parsing (source lines 58-70 / 108-118) -/

/-- A parsed calendar date. -/
structure Ymd where
  year : ℕ
  month : ℕ
  day : ℕ
deriving DecidableEq, Repr

/-- Leap-year rule used by `datetime` validity checking. -/
def isLeap (y : ℕ) : Bool := y % 4 == 0 && (y % 100 != 0 || y % 400 == 0)

/-- Number of days in a month, for `datetime` validity checking. -/
def daysInMonth (y m : ℕ) : ℕ :=
  if m = 2 then (if isLeap y then 29 else 28)
  else if m = 4 ∨ m = 6 ∨ m = 9 ∨ m = 11 then 30
  else 31

/-- Split a character list on a separator character (like `str.split`). -/
def splitChar (sep : Char) : List Char → List (List Char)
  | [] => [[]]
  | c :: cs =>
    match splitChar sep cs with
    | f :: rest => if c = sep then [] :: f :: rest else (c :: f) :: rest
    | [] => if c = sep then [[], []] else [[c]]

/-- Numeric value of a digit string. -/
def digitsVal (cs : List Char) : ℕ :=
  cs.foldl (fun a c => a * 10 + (c.toNat - 48)) 0

/-- A `strptime` numeric field: all digits, length between `lo` and `hi`
(CPython's `%d` and `%m` match 1-2 digits, `%Y` exactly 4). -/
def fieldNat (lo hi : ℕ) (cs : List Char) : Option ℕ :=
  if lo ≤ cs.length ∧ cs.length ≤ hi ∧ cs.all Char.isDigit then
    some (digitsVal cs)
  else none

/-- Field order of a three-field date format. -/
inductive FieldOrder where
  | dmy
  | mdy
  | ymd
deriving DecidableEq, Repr

/-- `datetime.strptime` restricted to the four formats the source tries:
three numeric fields joined by `sep` in the given order, each field matching
its directive's digit pattern, and the resulting (year, month, day) a valid
calendar date.  Returns `none` where `strptime` raises `ValueError`. -/
def strptime (cs : List Char) (sep : Char) (ord : FieldOrder) : Option Ymd :=
  match splitChar sep cs with
  | [f1, f2, f3] =>
    let ymd : Option (ℕ × ℕ × ℕ) :=
      match ord with
      | .dmy => do
          let d ← fieldNat 1 2 f1
          let m ← fieldNat 1 2 f2
          let y ← fieldNat 4 4 f3
          pure (y, m, d)
      | .mdy => do
          let m ← fieldNat 1 2 f1
          let d ← fieldNat 1 2 f2
          let y ← fieldNat 4 4 f3
          pure (y, m, d)
      | .ymd => do
          let y ← fieldNat 4 4 f1
          let m ← fieldNat 1 2 f2
          let d ← fieldNat 1 2 f3
          pure (y, m, d)
    match ymd with
    | some (y, m, d) =>
      if 1 ≤ y ∧ 1 ≤ m ∧ m ≤ 12 ∧ 1 ≤ d ∧ d ≤ daysInMonth y m then
        some ⟨y, m, d⟩
      else none
    | none => none
  | _ => none

/-- The inner fallback of the source's date handling: on a `ValueError` from
the first attempt, try `'%m/%d/%Y'`, and on a further `ValueError` try
`'%Y-%m-%d'` (an error from this last attempt propagates to the enclosing
blanket `except`, i.e. the whole parse fails). -/
def fallbackParse (cs : List Char) : Option Ymd :=
  match strptime cs '/' .mdy with
  | some d => some d
  | none => strptime cs '-' .ymd

/-- The source's date-parsing policy (lines 58-70, identical at 108-118):
a string containing `'/'` is tried as `'%d/%m/%Y'`, else one containing `'-'`
as `'%d-%m-%Y'`; a `ValueError` falls into `fallbackParse`.  A string with
neither separator is never parsed at all (the `try` body does nothing, no
exception fires, and the value stays a string, so the later date arithmetic
raises and the enclosing `except` makes the row fail). -/
def parse_date (s : String) : Option Ymd :=
  let cs := s.data
  if cs.contains '/' then
    match strptime cs '/' .dmy with
    | some d => some d
    | none => fallbackParse cs
  else if cs.contains '-' then
    match strptime cs '-' .dmy with
    | some d => some d
    | none => fallbackParse cs
  else none

/-! ### The batch evaluator (`main`, source lines 176-325) -/

/-- Floor of a rational, computed on its numerator and denominator
(`Int.fdiv` is floor division and the denominator is positive, so this is
the mathematical floor). -/
def qfloor (q : ℚ) : ℤ := q.num.fdiv q.den

/-- Python `round(x, 2)` on the exact value: round half to even at two
decimal places. -/
def round2 (q : ℚ) : ℚ :=
  let s := q * 100
  let f : ℤ := qfloor s
  let r : ℚ := s - (f : ℚ)
  let n : ℤ :=
    if r < 1 / 2 then f
    else if 1 / 2 < r then f + 1
    else if f % 2 = 0 then f else f + 1
  (n : ℚ) / 100

/-- One input row, after date parsing: the data source's behaviour for the
row's symbol (a market series, or a raised error) and the parsed entry date.
Both `get_stock_price` and `check_target_or_sl_first` query this same
source with their respective windows. -/
structure RowInput where
  market : Except String (List Bar)
  entry : ℤ

/-- One output row: the stored `close_price` column and `result` column. -/
structure TradeResult where
  close_price : ℚ
  result : Outcome
deriving DecidableEq, Repr

/-- The per-row body of the processing loop (source lines 195-215): resolve
the close price; if present, store it rounded to 2 decimals, derive the
target and stop-loss prices from the *unrounded* value, and classify;
otherwise store close 0.0 and `"Price Not Found"`. -/
def processRow (target_pct sl_pct : ℚ) (r : RowInput) : TradeResult :=
  match get_stock_price r.market r.entry with
  | none => ⟨0, .priceNotFound⟩
  | some c =>
    let tp := c * (1 + target_pct / 100)
    let sl := c * (1 - sl_pct / 100)
    ⟨round2 c, check_target_or_sl_first r.market r.entry tp sl⟩

/-- The whole processing loop: one `TradeResult` per input row, in order. -/
def processAll (target_pct sl_pct : ℚ) (rows : List RowInput) :
    List TradeResult :=
  rows.map (processRow target_pct sl_pct)

/-- One pandas masked assignment `df.loc[mask, 'pnl_pct'] = v`: pointwise
over the rows, replace the current pnl entry by `v` where the row satisfies
the mask. -/
def maskedSet (mask : TradeResult → Bool) (v : ℚ) :
    List TradeResult → List ℚ → List ℚ
  | r :: rs, p :: ps => (if mask r then v else p) :: maskedSet mask v rs ps
  | _, _ => []

/-- The pnl column construction (source lines 308-310): initialise to 0.0,
set `target_pct` on the `"Target Hit"` rows, then `-sl_pct` on the
`"Stop Loss Hit"` rows. -/
def assign_pnl (target_pct sl_pct : ℚ) (results : List TradeResult) :
    List ℚ :=
  let p0 := results.map (fun _ => (0 : ℚ))
  let p1 := maskedSet (fun r => decide (r.result = .targetHit)) target_pct
    results p0
  maskedSet (fun r => decide (r.result = .stopLossHit)) (-sl_pct) results p1

/-- `df['pnl_pct'].sum()` (source line 312). -/
def total_pnl (target_pct sl_pct : ℚ) (results : List TradeResult) : ℚ :=
  (assign_pnl target_pct sl_pct results).sum

/-- The per-outcome value of the pnl column, as the spec words it. -/
def pnl_for (target_pct sl_pct : ℚ) (o : Outcome) : ℚ :=
  if o = .targetHit then target_pct
  else if o = .stopLossHit then -sl_pct
  else 0

/-- `len(df[df['result'] == o])` (source lines 236-237). -/
def countResult (o : Outcome) (results : List TradeResult) : ℕ :=
  (results.filter (fun r => decide (r.result = o))).length

/-- `len(df[df['result'].isin(['Neither Hit', 'No Data', 'Price Not
Found'])])` (source line 238). -/
def countNoResult (results : List TradeResult) : ℕ :=
  (results.filter (fun r =>
    decide (r.result = .neitherHit ∨ r.result = .noData ∨
      r.result = .priceNotFound))).length

/-- The win-rate expression (source line 313): in percent, guarded against a
zero denominator. -/
def win_rate (results : List TradeResult) : ℚ :=
  let tgt := countResult .targetHit results
  let slh := countResult .stopLossHit results
  if tgt + slh > 0 then (tgt : ℚ) / ((tgt : ℚ) + (slh : ℚ)) * 100 else 0

/-- Python `/`: raises `ZeroDivisionError` on a zero divisor. -/
def pyDiv (a b : ℚ) : Except String ℚ :=
  if b = 0 then .error "division by zero" else .ok (a / b)

/-- The portfolio-level numbers `main` computes after the loop. -/
structure Summary where
  total_trades : ℕ
  target_hit : ℕ
  sl_hit : ℕ
  no_result : ℕ
  target_hit_rate : ℚ
  sl_hit_rate : ℚ
  no_result_rate : ℚ
  pnl : ℚ
  winRate : ℚ
  avg_pnl : ℚ
deriving DecidableEq, Repr

/-- The statistics block of `main` (source lines 235-250 and 305-325), in
source order: the three percentage metrics divide by `total_trades` with
Python `/` (unguarded, lines 244/247/250), then the pnl column, total pnl,
win rate (guarded, line 313) and average pnl (guarded, line 324) are
computed.  An unhandled `ZeroDivisionError` surfaces as `Except.error`. -/
def summarize (target_pct sl_pct : ℚ) (results : List TradeResult) :
    Except String Summary := do
  let total := results.length
  let tgt := countResult .targetHit results
  let slh := countResult .stopLossHit results
  let nores := countNoResult results
  let r1 ← pyDiv (tgt : ℚ) (total : ℚ)
  let tgtRate := r1 * 100
  let r2 ← pyDiv (slh : ℚ) (total : ℚ)
  let slRate := r2 * 100
  let r3 ← pyDiv (nores : ℚ) (total : ℚ)
  let noRate := r3 * 100
  let tpnl := total_pnl target_pct sl_pct results
  let wr := win_rate results
  let avg := if total > 0 then tpnl / (total : ℚ) else 0
  return ⟨total, tgt, slh, nores, tgtRate, slRate, noRate, tpnl, wr, avg⟩

/-! ### Helper lemmas -/

theorem mem_history {m : List Bar} {s t : ℤ} {b : Bar} :
    b ∈ history m s t ↔ b ∈ m ∧ s ≤ b.date ∧ b.date < t := by
  simp [history, List.mem_filter]

theorem history_append (l1 l2 : List Bar) (s t : ℤ) :
    history (l1 ++ l2) s t = history l1 s t ++ history l2 s t :=
  List.filter_append l1 l2

theorem history_cons_of_mem {b : Bar} {s t : ℤ} (h1 : s ≤ b.date)
    (h2 : b.date < t) (l : List Bar) :
    history (b :: l) s t = b :: history l s t := by
  simp [history, h1, h2]

theorem scanBars_skip_all {e : ℤ} {tp sl : ℚ} :
    ∀ {l : List Bar}, (∀ b ∈ l, ¬ e < b.date) →
      scanBars e tp sl l = .neitherHit
  | [], _ => rfl
  | b :: rest, h => by
    have hb : ¬ e < b.date := h b (List.mem_cons_self b rest)
    have hrest : scanBars e tp sl rest = .neitherHit :=
      scanBars_skip_all (fun x hx => h x (List.mem_cons_of_mem b hx))
    simp [scanBars, hb, hrest]

theorem scanBars_passthrough {e : ℤ} {tp sl : ℚ} :
    ∀ {l1 : List Bar},
      (∀ b ∈ l1, ¬ e < b.date ∨ (b.high < tp ∧ sl < b.low)) →
      ∀ (l2 : List Bar), scanBars e tp sl (l1 ++ l2) = scanBars e tp sl l2
  | [], _, l2 => rfl
  | b :: rest, h, l2 => by
    have hb := h b (List.mem_cons_self b rest)
    have hrest : scanBars e tp sl (rest ++ l2) = scanBars e tp sl l2 :=
      scanBars_passthrough
        (fun x hx => h x (List.mem_cons_of_mem b hx)) l2
    rcases hb with hb | ⟨hb1, hb2⟩
    · simp [scanBars, hb, hrest]
    · have h1 : ¬ tp ≤ b.high := not_le.mpr hb1
      have h2 : ¬ b.low ≤ sl := not_le.mpr hb2
      simp [scanBars, h1, h2, hrest]

theorem scanBars_stopLoss_inv {e : ℤ} {tp sl : ℚ} :
    ∀ {l : List Bar}, scanBars e tp sl l = .stopLossHit →
      ∃ b ∈ l, e < b.date ∧ b.low ≤ sl ∧ b.high < tp
  | [], h => by simp [scanBars] at h
  | b :: rest, h => by
    by_cases hd : e < b.date
    · by_cases htp : tp ≤ b.high
      · simp [scanBars, hd, htp] at h
      · by_cases hsl : b.low ≤ sl
        · exact ⟨b, List.mem_cons_self b rest, hd, hsl, not_le.mp htp⟩
        · rw [scanBars, if_pos hd, if_neg htp, if_neg hsl] at h
          obtain ⟨x, hx, hx2⟩ := scanBars_stopLoss_inv h
          exact ⟨x, List.mem_cons_of_mem b hx, hx2⟩
    · rw [scanBars, if_neg hd] at h
      obtain ⟨x, hx, hx2⟩ := scanBars_stopLoss_inv h
      exact ⟨x, List.mem_cons_of_mem b hx, hx2⟩

theorem check_ok_eq (m : List Bar) (e : ℤ) (tp sl : ℚ) :
    check_target_or_sl_first (.ok m) e tp sl =
      if history m e (e + 30) = [] then .noData
      else scanBars e tp sl (history m e (e + 30)) := rfl

theorem assign_pnl_cons (t s : ℚ) (r : TradeResult) (rs : List TradeResult) :
    assign_pnl t s (r :: rs) =
      pnl_for t s r.result :: assign_pnl t s rs := by
  rcases r with ⟨c, o⟩
  cases o <;> simp [assign_pnl, maskedSet, pnl_for]

theorem assign_pnl_eq_map (t s : ℚ) (results : List TradeResult) :
    assign_pnl t s results = results.map (fun r => pnl_for t s r.result) := by
  induction results with
  | nil => rfl
  | cons r rs ih => rw [assign_pnl_cons, ih, List.map_cons]

/-! ### Claim theorems -/

/-- C1: within every scanned bar the target threshold is checked before the
stop-loss threshold.  Part 1: a `StopLossHit` verdict can only come from a
scanned bar whose high is strictly below the target price, so a bar touching
both thresholds never produces `StopLossHit`.  Part 2: if the first
in-window bar that touches any threshold has `high ≥ target_price`, the
classifier returns `TargetHit` even when that same bar also has
`low ≤ stop_loss_price`. -/
theorem target_checked_before_stop :
    (∀ (m : List Bar) (e : ℤ) (tp sl : ℚ),
      check_target_or_sl_first (.ok m) e tp sl = .stopLossHit →
      ∃ b ∈ m, e < b.date ∧ b.date < e + 30 ∧ b.low ≤ sl ∧ b.high < tp) ∧
    (∀ (pre rest : List Bar) (b : Bar) (e : ℤ) (tp sl : ℚ),
      (∀ p ∈ pre, p.date ≤ e ∨ e + 30 ≤ p.date ∨ (p.high < tp ∧ sl < p.low)) →
      e < b.date → b.date < e + 30 → tp ≤ b.high → b.low ≤ sl →
      check_target_or_sl_first (.ok (pre ++ b :: rest)) e tp sl =
        .targetHit) := by
  constructor
  · intro m e tp sl h
    rw [check_ok_eq] at h
    by_cases hemp : history m e (e + 30) = []
    · rw [if_pos hemp] at h
      exact absurd h (by simp)
    · rw [if_neg hemp] at h
      obtain ⟨x, hx, hx1, hx2, hx3⟩ := scanBars_stopLoss_inv h
      obtain ⟨hxm, hxlo, hxhi⟩ := mem_history.mp hx
      exact ⟨x, hxm, hx1, hxhi, hx2, hx3⟩
  · intro pre rest b e tp sl hpre hb1 hb2 htp hsl
    rw [check_ok_eq, history_append,
      history_cons_of_mem (le_of_lt hb1) hb2]
    have hne : history pre e (e + 30) ++ b :: history rest e (e + 30) ≠ [] := by
      simp
    rw [if_neg hne]
    have hpass : ∀ p ∈ history pre e (e + 30),
        ¬ e < p.date ∨ (p.high < tp ∧ sl < p.low) := by
      intro p hp
      obtain ⟨hpm, hplo, hphi⟩ := mem_history.mp hp
      rcases hpre p hpm with h1 | h2 | h3
      · exact Or.inl (not_lt.mpr h1)
      · exact absurd hphi (not_lt.mpr h2)
      · exact Or.inr h3
    rw [scanBars_passthrough hpass]
    simp [scanBars, hb1, htp]

/-- C1 witness: a lone bar on day 1 with high 103 ≥ target 103 and low
98 ≤ stop 98 touches both thresholds and is classified `TargetHit`; and a
`StopLossHit` verdict (lone bar with high 100 < 103, low 97 ≤ 98) comes
from a bar whose high is below the target. -/
theorem target_checked_before_stop_witness :
    (∃ b ∈ ([⟨1, 100, 97, 99⟩] : List Bar),
      (0 : ℤ) < b.date ∧ b.date < 0 + 30 ∧ b.low ≤ (98 : ℚ) ∧
        b.high < (103 : ℚ)) ∧
    check_target_or_sl_first (.ok ([] ++ ⟨1, 103, 98, 100⟩ :: []))
      0 103 98 = .targetHit :=
  ⟨target_checked_before_stop.1 [⟨1, 100, 97, 99⟩] 0 103 98 (by decide),
   target_checked_before_stop.2 [] [] ⟨1, 103, 98, 100⟩ 0 103 98
     (by simp) (by decide) (by decide) (by decide) (by decide)⟩

/-- C2 counterexample: the claim says a bar dated exactly entry_date+30 is
included in the scan.  The data source's `end` bound is exclusive, so for a
market whose only bar sits at day 30 (entry day 0) with high 1000 far above
the target 103, the classifier fetches nothing and returns `NoData`, not
`TargetHit`. -/
theorem day30_bar_excluded :
    check_target_or_sl_first (.ok [⟨30, 1000, 999, 1000⟩]) 0 103 98 =
      .noData ∧
    Outcome.noData ≠ Outcome.targetHit := ⟨by decide, by decide⟩

/-- C2 (amended): the scan window is entry_date+1 through entry_date+29
inclusive.  Bars outside the open interval (entry_date, entry_date+30) never
produce a hit; any in-window bar (day entry+1 up to entry+29) with
high ≥ target is scanned and yields `TargetHit`; and a bar at exactly
entry_date+30 is not even fetched (a lone one yields `NoData`). -/
theorem scan_window_bounds :
    (∀ (m : List Bar) (e : ℤ) (tp sl : ℚ),
      (∀ b ∈ m, ¬ (e < b.date ∧ b.date < e + 30)) →
      check_target_or_sl_first (.ok m) e tp sl ≠ .targetHit ∧
        check_target_or_sl_first (.ok m) e tp sl ≠ .stopLossHit) ∧
    (∀ (b : Bar) (e : ℤ) (tp sl : ℚ),
      e < b.date → b.date < e + 30 → tp ≤ b.high →
      check_target_or_sl_first (.ok [b]) e tp sl = .targetHit) ∧
    (∀ (b : Bar) (e : ℤ) (tp sl : ℚ), b.date = e + 30 →
      check_target_or_sl_first (.ok [b]) e tp sl = .noData) := by
  refine ⟨?_, ?_, ?_⟩
  · intro m e tp sl h
    rw [check_ok_eq]
    by_cases hemp : history m e (e + 30) = []
    · rw [if_pos hemp]
      exact ⟨by simp, by simp⟩
    · rw [if_neg hemp]
      have hskip : ∀ b ∈ history m e (e + 30), ¬ e < b.date := by
        intro b hb
        obtain ⟨hbm, hblo, hbhi⟩ := mem_history.mp hb
        intro hlt
        exact h b hbm ⟨hlt, hbhi⟩
      rw [scanBars_skip_all hskip]
      exact ⟨by simp, by simp⟩
  · intro b e tp sl h1 h2 h3
    rw [check_ok_eq, history_cons_of_mem (le_of_lt h1) h2]
    have hne : b :: history [] e (e + 30) ≠ [] := by simp
    rw [if_neg hne]
    simp [history, scanBars, h1, h3]
  · intro b e tp sl h
    have hemp : history [b] e (e + 30) = [] := by
      simp [history, h]
    rw [check_ok_eq, if_pos hemp]

/-- C2 witness: a lone bar at day 29 (entry day 0) with high above the
target is scanned and hits; bars at day 0 and day 30 only never hit; a lone
bar at day 30 yields `NoData`. -/
theorem scan_window_bounds_witness :
    (check_target_or_sl_first (.ok [⟨0, 1000, 1, 1⟩, ⟨30, 1000, 1, 1⟩])
        0 103 98 ≠ .targetHit ∧
      check_target_or_sl_first (.ok [⟨0, 1000, 1, 1⟩, ⟨30, 1000, 1, 1⟩])
        0 103 98 ≠ .stopLossHit) ∧
    check_target_or_sl_first (.ok [⟨29, 104, 99, 100⟩]) 0 103 98 =
      .targetHit ∧
    check_target_or_sl_first (.ok [⟨30, 104, 99, 100⟩]) 0 103 98 =
      .noData :=
  ⟨scan_window_bounds.1 [⟨0, 1000, 1, 1⟩, ⟨30, 1000, 1, 1⟩] 0 103 98
      (by decide),
   scan_window_bounds.2.1 ⟨29, 104, 99, 100⟩ 0 103 98 (by decide) (by decide)
     (by decide),
   scan_window_bounds.2.2 ⟨30, 104, 99, 100⟩ 0 103 98 (by decide)⟩

/-- C5 counterexample: the claim says an empty forward series (no bars after
the entry date) yields `NoData`.  But the emptiness test runs on the fetched
window, which starts at the entry date itself: a market whose only bar is on
the entry day has an empty post-entry series, yet the classifier scans a
non-empty window, skips that bar, and returns `NeitherHit`. -/
theorem entry_only_series_neither_hit :
    check_target_or_sl_first (.ok [⟨0, 110, 90, 100⟩]) 0 103 98 =
      .neitherHit ∧
    Outcome.neitherHit ≠ Outcome.noData := ⟨by decide, by decide⟩

/-- C5 (amended): `NoData` is returned exactly when the fetched window
(entry_date through entry_date+30, end-exclusive) is empty; a non-empty
fetch whose bars all lie on or before the entry date returns `NeitherHit`
instead; and an absent close price makes the row `PriceNotFound` with
recorded close 0 and pnl 0. -/
theorem no_data_and_price_not_found :
    (∀ (e : ℤ) (tp sl : ℚ),
      check_target_or_sl_first (.ok []) e tp sl = .noData) ∧
    (∀ (m : List Bar) (e : ℤ) (tp sl : ℚ), history m e (e + 30) = [] →
      check_target_or_sl_first (.ok m) e tp sl = .noData) ∧
    (∀ (m : List Bar) (e : ℤ) (tp sl : ℚ), history m e (e + 30) ≠ [] →
      (∀ b ∈ m, b.date ≤ e) →
      check_target_or_sl_first (.ok m) e tp sl = .neitherHit) ∧
    (∀ (t s : ℚ) (r : RowInput), get_stock_price r.market r.entry = none →
      processRow t s r = ⟨0, .priceNotFound⟩ ∧
        pnl_for t s .priceNotFound = 0) := by
  refine ⟨?_, ?_, ?_, ?_⟩
  · intro e tp sl
    rfl
  · intro m e tp sl h
    rw [check_ok_eq, if_pos h]
  · intro m e tp sl hne h
    rw [check_ok_eq, if_neg hne]
    apply scanBars_skip_all
    intro b hb
    exact not_lt.mpr (h b (mem_history.mp hb).1)
  · intro t s r h
    refine ⟨?_, rfl⟩
    unfold processRow
    rw [h]

/-- C5 witness: an empty market, a market whose only bar is outside the
30-day window, a market whose only bar is on the entry day, and a row whose
resolver comes up empty. -/
theorem no_data_and_price_not_found_witness :
    check_target_or_sl_first (.ok []) 0 103 98 = .noData ∧
    check_target_or_sl_first (.ok [⟨40, 110, 90, 100⟩]) 0 103 98 =
      .noData ∧
    check_target_or_sl_first (.ok [⟨0, 110, 90, 100⟩]) 0 103 98 =
      .neitherHit ∧
    (processRow 3 2 ⟨.ok [], 0⟩ = ⟨0, .priceNotFound⟩ ∧
      pnl_for 3 2 .priceNotFound = 0) :=
  ⟨no_data_and_price_not_found.1 0 103 98,
   no_data_and_price_not_found.2.1 [⟨40, 110, 90, 100⟩] 0 103 98 (by decide),
   no_data_and_price_not_found.2.2.1 [⟨0, 110, 90, 100⟩] 0 103 98
     (by decide) (by decide),
   no_data_and_price_not_found.2.2.2 3 2 ⟨.ok [], 0⟩ rfl⟩

/-- C3 counterexample: the claim says "12-25-2023" (invalid day-first)
successfully falls back to a month-first parse.  It does not: the
month-first fallback format is slash-separated (`'%m/%d/%Y'`), so it cannot
match a dash string, and the final ISO attempt reads month 25 and fails too;
the whole parse raises and the row resolves to no price. -/
theorem dash_month_first_fails : parse_date "12-25-2023" = none := by decide

/-- C3 (amended): the parse priority is day/month/year for slash strings and
day-month-year for dash strings, with a fallback chain of month/day/year
(slash only) then ISO year-month-day (dash only); "25/12/2023" parses
day-first, "12/25/2023" falls back to month-first, but "12-25-2023" fails
every format, and a string with neither separator is never parsed. -/
theorem parse_priority :
    parse_date "25/12/2023" = some ⟨2023, 12, 25⟩ ∧
    parse_date "12/25/2023" = some ⟨2023, 12, 25⟩ ∧
    parse_date "12-25-2023" = none ∧
    (∀ (s : String) (d : Ymd), '/' ∈ s.data →
      strptime s.data '/' .dmy = some d → parse_date s = some d) ∧
    (∀ (s : String) (d : Ymd), '/' ∉ s.data → '-' ∈ s.data →
      strptime s.data '-' .dmy = some d → parse_date s = some d) ∧
    (∀ s : String, '/' ∉ s.data → '-' ∉ s.data →
      parse_date s = none) := by
  refine ⟨by decide, by decide, by decide, ?_, ?_, ?_⟩
  · intro s d h1 h2
    simp [parse_date, h1, h2]
  · intro s d h1 h2 h3
    simp [parse_date, h1, h2, h3]
  · intro s h1 h2
    simp [parse_date, h1, h2]

/-- C3 witness: the day-first slash format applies to "25/12/2023", the
day-first dash format to "25-12-2023", and "20231225" has no separator. -/
theorem parse_priority_witness :
    parse_date "25/12/2023" = some ⟨2023, 12, 25⟩ ∧
    parse_date "25-12-2023" = some ⟨2023, 12, 25⟩ ∧
    parse_date "20231225" = none :=
  ⟨parse_priority.2.2.2.1 "25/12/2023" ⟨2023, 12, 25⟩ (by decide) (by decide),
   parse_priority.2.2.2.2.1 "25-12-2023" ⟨2023, 12, 25⟩ (by decide)
     (by decide) (by decide),
   parse_priority.2.2.2.2.2 "20231225" (by decide) (by decide)⟩

/-- C4: the claim describes the closest-trading-day fallback, but the code's
fallback line `data['date_diff'] = abs((data.index.date - date.date()).days)`
raises `AttributeError` (`.days` on a numpy array), which the blanket
`except` converts to `None`.  On a window holding a single bar one day after
the target date, the resolver as implemented returns `None`, while the
spec's nearest-bar rule (`resolve_spec`) returns that bar's close 55. -/
theorem closest_day_branch_returns_none :
    get_stock_price (.ok [⟨1, 110, 90, 55⟩]) 0 = none ∧
    resolve_spec [⟨1, 110, 90, 55⟩] 0 = some 55 := ⟨by decide, by decide⟩

/-- Helper: the value of `summarize` on a non-empty result list. -/
theorem summarize_eq (t s : ℚ) (results : List TradeResult)
    (hne : ¬ ((results.length : ℚ) = 0)) :
    summarize t s results = .ok
      ⟨results.length, countResult .targetHit results,
        countResult .stopLossHit results, countNoResult results,
        (countResult .targetHit results : ℚ) / (results.length : ℚ) * 100,
        (countResult .stopLossHit results : ℚ) / (results.length : ℚ) * 100,
        (countNoResult results : ℚ) / (results.length : ℚ) * 100,
        total_pnl t s results, win_rate results,
        if results.length > 0 then total_pnl t s results / (results.length : ℚ)
        else 0⟩ := by
  simp only [summarize, pyDiv, if_neg hne]
  rfl

/-- Helper: `summarize` raises on an empty result list. -/
theorem summarize_err (t s : ℚ) (results : List TradeResult)
    (hz : (results.length : ℚ) = 0) :
    summarize t s results = .error "division by zero" := by
  simp only [summarize, pyDiv, if_pos hz]
  rfl

/-- C6: the pnl column assigns `+target_pct` to `TargetHit` rows, `-sl_pct`
to `StopLossHit` rows and 0 to every other row, and the reported total P&L
is the sum of the column. -/
theorem pnl_column_spec :
    ∀ (t s : ℚ) (results : List TradeResult),
      (assign_pnl t s results).length = results.length ∧
      (∀ (i : ℕ) (h1 : i < results.length)
        (h2 : i < (assign_pnl t s results).length),
        (assign_pnl t s results).get ⟨i, h2⟩ =
          pnl_for t s (results.get ⟨i, h1⟩).result) ∧
      total_pnl t s results =
        (results.map (fun r => pnl_for t s r.result)).sum := by
  intro t s results
  refine ⟨?_, ?_, ?_⟩
  · rw [assign_pnl_eq_map, List.length_map]
  · intro i h1 h2
    simp [assign_pnl_eq_map]
  · rw [total_pnl, assign_pnl_eq_map]

/-- C6 witness: a three-row batch with one target hit (pnl +3), one
stop-loss hit (pnl -2) and one no-data row (pnl 0). -/
theorem pnl_column_spec_witness :
    (assign_pnl 3 2
        [⟨100, .targetHit⟩, ⟨50, .stopLossHit⟩, ⟨0, .noData⟩]).length =
      ([⟨100, .targetHit⟩, ⟨50, .stopLossHit⟩, ⟨0, .noData⟩] :
        List TradeResult).length ∧
    (assign_pnl 3 2
        [⟨100, .targetHit⟩, ⟨50, .stopLossHit⟩, ⟨0, .noData⟩]).get
      ⟨1, by decide⟩ =
      pnl_for 3 2
        (([⟨100, .targetHit⟩, ⟨50, .stopLossHit⟩, ⟨0, .noData⟩] :
          List TradeResult).get ⟨1, by decide⟩).result ∧
    total_pnl 3 2 [⟨100, .targetHit⟩, ⟨50, .stopLossHit⟩, ⟨0, .noData⟩] =
      (([⟨100, .targetHit⟩, ⟨50, .stopLossHit⟩, ⟨0, .noData⟩] :
        List TradeResult).map (fun r => pnl_for 3 2 r.result)).sum :=
  ⟨(pnl_column_spec 3 2 _).1,
   (pnl_column_spec 3 2 _).2.1 1 (by decide) (by decide),
   (pnl_column_spec 3 2 _).2.2⟩

/-- C7: the reported win rate (the code expresses it in percent and renders
it with a `%` suffix) is the `TargetHit` share of resolved trades whenever
some trade resolved, and 0 when none did; and the win rate carried in a
successfully computed summary is exactly this quantity. -/
theorem win_rate_spec_thm :
    ∀ results : List TradeResult,
      (0 < countResult .targetHit results + countResult .stopLossHit results →
        win_rate results = (countResult .targetHit results : ℚ) /
          ((countResult .targetHit results : ℚ) +
            (countResult .stopLossHit results : ℚ)) * 100) ∧
      (countResult .targetHit results + countResult .stopLossHit results = 0 →
        win_rate results = 0) ∧
      (∀ (t s : ℚ) (S : Summary), summarize t s results = .ok S →
        S.winRate = win_rate results) := by
  intro results
  refine ⟨?_, ?_, ?_⟩
  · intro h
    rw [win_rate, if_pos h]
  · intro h
    rw [win_rate, if_neg (by omega)]
  · intro t s S h
    by_cases hz : (results.length : ℚ) = 0
    · rw [summarize_err t s results hz] at h
      exact absurd h (by simp)
    · rw [summarize_eq t s results hz] at h
      have := (Except.ok.injEq _ _).mp h
      rw [← this]

/-- C7 witness: one target hit and one stop-loss hit give a win rate of
1/(1+1) (in percent: 50), and the summary reports exactly that; an empty
batch's win-rate expression is 0. -/
theorem win_rate_spec_witness :
    win_rate [⟨100, .targetHit⟩, ⟨50, .stopLossHit⟩] =
      (countResult .targetHit [⟨100, .targetHit⟩, ⟨50, .stopLossHit⟩] : ℚ) /
        ((countResult .targetHit
            [⟨100, .targetHit⟩, ⟨50, .stopLossHit⟩] : ℚ) +
          (countResult .stopLossHit
            [⟨100, .targetHit⟩, ⟨50, .stopLossHit⟩] : ℚ)) * 100 ∧
    win_rate [] = 0 ∧
    (Summary.mk 2 1 1 0 50 50 0 1 50 (1 / 2)).winRate =
      win_rate [⟨100, .targetHit⟩, ⟨50, .stopLossHit⟩] :=
  ⟨(win_rate_spec_thm _).1 (by decide),
   (win_rate_spec_thm []).2.1 rfl,
   (win_rate_spec_thm _).2.2 3 2 ⟨2, 1, 1, 0, 50, 50, 0, 1, 50, 1 / 2⟩
     (by with_unfolding_all rfl)⟩

/-- C8: on an empty uploaded table, the loop produces an empty result list,
all outcome counts are zero and the guarded win-rate expression is 0 — but
the statistics block itself divides the target-hit count by
`total_trades = 0` (source line 244) before ever reaching it, so the code
raises `ZeroDivisionError` instead of producing the all-zero summary the
claim promises. -/
theorem empty_batch_crashes :
    processAll 3 2 [] = [] ∧
    countResult .targetHit [] = 0 ∧
    countResult .stopLossHit [] = 0 ∧
    countNoResult [] = 0 ∧
    win_rate [] = 0 ∧
    summarize 3 2 [] = .error "division by zero" :=
  ⟨rfl, rfl, rfl, rfl, rfl, rfl⟩

/-- C9: failures degrade per row: a raised data-source error makes the
resolver return `None` (never an exception), makes the classifier return
the sentinel `"Error: ..."` outcome, and the batch loop still yields exactly
one result per request. -/
theorem per_row_failure_isolation :
    (∀ (msg : String) (d : ℤ), get_stock_price (.error msg) d = none) ∧
    (∀ (msg : String) (e : ℤ) (tp sl : ℚ),
      check_target_or_sl_first (.error msg) e tp sl =
        .err ("Error: " ++ msg)) ∧
    (∀ (t s : ℚ) (rows : List RowInput),
      (processAll t s rows).length = rows.length) :=
  ⟨fun _ _ => rfl, fun _ _ _ _ => rfl,
   fun t s rows => List.length_map rows (processRow t s)⟩

/-- C10: a row with a resolved close price stores `round2` of it in the
table but classifies with thresholds computed from the unrounded value;
and for the resolved price 100.123 (with the default 3% / 2% parameters)
the thresholds differ from the recorded close times the threshold
factors. -/
theorem threshold_rounding_mismatch :
    (∀ (t s : ℚ) (r : RowInput) (c : ℚ),
      get_stock_price r.market r.entry = some c →
      processRow t s r = ⟨round2 c,
        check_target_or_sl_first r.market r.entry
          (c * (1 + t / 100)) (c * (1 - s / 100))⟩) ∧
    (∃ c : ℚ, round2 c * (1 + 3 / 100) ≠ c * (1 + 3 / 100) ∧
      round2 c * (1 - 2 / 100) ≠ c * (1 - 2 / 100)) := by
  constructor
  · intro t s r c h
    unfold processRow
    rw [h]
  · refine ⟨100123 / 1000, ?_, ?_⟩
    · with_unfolding_all decide
    · with_unfolding_all decide

/-- C10 witness: a market with one bar on the entry day whose close is
100.123; the row records the rounded close but classifies against
thresholds derived from 100.123 itself. -/
theorem threshold_rounding_mismatch_witness :
    processRow 3 2 ⟨.ok [⟨0, 110, 90, 100123 / 1000⟩], 0⟩ =
      ⟨round2 (100123 / 1000),
        check_target_or_sl_first
          (RowInput.mk (.ok [⟨0, 110, 90, 100123 / 1000⟩]) 0).market
          (RowInput.mk (.ok [⟨0, 110, 90, 100123 / 1000⟩]) 0).entry
          ((100123 / 1000 : ℚ) * (1 + 3 / 100))
          ((100123 / 1000 : ℚ) * (1 - 2 / 100))⟩ :=
  threshold_rounding_mismatch.1 3 2 ⟨.ok [⟨0, 110, 90, 100123 / 1000⟩], 0⟩
    (100123 / 1000) rfl

end Meet
